import Mathlib

/-!
Verification of the conference-organization app (conference.py) against its
natural-language specification.  The Python source is shallowly embedded:
entities become structures, datastore lookups become functions
`String → Option _` from websafe keys to entities, memcache values for a
fixed key become `Option String`, and operations that may raise become
`Except PyErr _`.  Date/time fields are omitted: no verified claim mentions
them and they interact with no modelled behavior.
-/

namespace ConferenceApp

/-- Exceptions the embedded Python code can raise.  `notFound`, `conflict`,
`forbidden` model `endpoints.NotFoundException`, `models.ConflictException`
and `endpoints.ForbiddenException`; `attributeError` and `nameError` model
the corresponding uncaught Python runtime errors. -/
inductive PyErr where
  | notFound
  | conflict
  | forbidden
  | attributeError
  | nameError
  deriving DecidableEq

/-- `Conference` entity (models.py, fields as listed in spec §3 and used by
conference.py).  `startDate`/`endDate` omitted (no claim concerns them). -/
structure Conference where
  name : String
  city : String
  topics : List String
  maxAttendees : Int
  seatsAvailable : Int
  month : Int
  organizerUserId : String
  deriving DecidableEq

/-- `Session` entity.  `wsckParent` is the websafe key of the parent
Conference (every Session key is allocated with a Conference parent in
`_createSessionObject`).  Date/time fields omitted. -/
structure Session where
  name : String
  highlights : List String
  speaker : String
  typeOfSession : String
  wsckParent : String
  deriving DecidableEq

/-- `Profile` entity. -/
structure Profile where
  displayName : String
  mainEmail : String
  teeShirtSize : String
  conferenceKeysToAttend : List String
  sessWishlist : List String
  deriving DecidableEq

/-- Seat initialization in `_createConferenceObject` (conference.py lines
206-208): `if data["maxAttendees"] > 0: data["seatsAvailable"] =
data["maxAttendees"]`; otherwise the requested/default value is kept. -/
def initialSeats (maxAttendees requested : Int) : Int :=
  if 0 < maxAttendees then maxAttendees else requested

/-- `_conferenceRegistration` (conference.py lines 799-845), `reg = true`
for register, `false` for unregister.  The method runs under
`@ndb.transactional(xg=True)`, so a raised exception persists nothing; the
`Except.ok` payload is the pair of entities written back plus the
`BooleanMessage` value returned. -/
def conferenceRegistration (reg : Bool) (wsck : String) (prof : Profile)
    (confs : String → Option Conference) :
    Except PyErr (Profile × Conference × Bool) :=
  match confs wsck with
  | none => .error .notFound
  | some conf =>
    if reg then
      if wsck ∈ prof.conferenceKeysToAttend then
        .error .conflict
      else if conf.seatsAvailable ≤ 0 then
        .error .conflict
      else
        .ok ({ prof with conferenceKeysToAttend := prof.conferenceKeysToAttend ++ [wsck] },
             { conf with seatsAvailable := conf.seatsAvailable - 1 }, true)
    else
      if wsck ∈ prof.conferenceKeysToAttend then
        .ok ({ prof with conferenceKeysToAttend := prof.conferenceKeysToAttend.erase wsck },
             { conf with seatsAvailable := conf.seatsAvailable + 1 }, true)
      else
        .ok (prof, conf, false)

end ConferenceApp

namespace ConferenceApp

/-- State of one conference together with the profiles that may operate on
it: the registration subsystem as seen by a single conference. -/
structure SysState where
  conf : Conference
  profs : List Profile
  deriving DecidableEq

/-- One registration-engine call: register (`reg = true`) or unregister by
the profile at index `pid`. -/
inductive RegOp where
  | register (pid : Nat)
  | unregister (pid : Nat)
  deriving DecidableEq

/-- Whether a `RegOp` is a register (`true`) or unregister (`false`). -/
def RegOp.isReg : RegOp → Bool
  | .register _ => true
  | .unregister _ => false

/-- The index of the profile performing the operation. -/
def RegOp.pid : RegOp → Nat
  | .register p => p
  | .unregister p => p

/-- Effect of one call of `_conferenceRegistration` on the system state:
the conference key resolves to the current conference entity; an exception
(transaction rollback) or an out-of-range profile index leaves the state
unchanged; otherwise the written-back entities replace the old ones. -/
def regApply (wsck : String) (s : SysState) (reg : Bool) (pid : Nat) : SysState :=
  match s.profs[pid]? with
  | none => s
  | some prof =>
    match conferenceRegistration reg wsck prof
        (fun k => if k = wsck then some s.conf else none) with
    | .error _ => s
    | .ok (p', c', _) => ⟨c', s.profs.set pid p'⟩

/-- One step of the registration engine. -/
def regStep (wsck : String) (s : SysState) (op : RegOp) : SysState :=
  regApply wsck s op.isReg op.pid

/-- Run a sequence of registration-engine calls. -/
def runRegOps (wsck : String) (s : SysState) : List RegOp → SysState
  | [] => s
  | op :: ops => runRegOps wsck (regStep wsck s op) ops

/-- Total number of occurrences of the conference key in the attendance
lists of all profiles. -/
def regCount (wsck : String) (profs : List Profile) : Int :=
  (profs.map (fun p => (p.conferenceKeysToAttend.count wsck : Int))).sum

/-- Inductive invariant of the registration engine for a conference with
capacity `m`: seats never negative, capacity never touched, and seats plus
outstanding registrations exactly exhaust the capacity. -/
def RegInv (wsck : String) (m : Int) (s : SysState) : Prop :=
  0 ≤ s.conf.seatsAvailable ∧ s.conf.maxAttendees = m ∧
    s.conf.seatsAvailable + regCount wsck s.profs = m

theorem regCount_nonneg (wsck : String) (profs : List Profile) :
    0 ≤ regCount wsck profs := by
  apply List.sum_nonneg
  intro x hx
  simp only [List.mem_map] at hx
  obtain ⟨p, _, rfl⟩ := hx
  exact Int.natCast_nonneg _

theorem map_sum_set (f : Profile → Int) (l : List Profile) (i : Nat)
    (a b : Profile) (h : l[i]? = some a) :
    ((l.set i b).map f).sum = (l.map f).sum + f b - f a := by
  induction l generalizing i with
  | nil => simp at h
  | cons x xs ih =>
    cases i with
    | zero =>
      simp only [List.getElem?_cons_zero, Option.some.injEq] at h
      subst h
      simp [List.set]
      ring
    | succ n =>
      simp only [List.getElem?_cons_succ] at h
      simp only [List.set, List.map_cons, List.sum_cons, ih n h]
      ring

theorem conferenceRegistration_ok_true {wsck : String} {prof : Profile}
    {confs : String → Option Conference} {p' : Profile} {c' : Conference} {b : Bool}
    (h : conferenceRegistration true wsck prof confs = .ok (p', c', b)) :
    ∃ conf, confs wsck = some conf ∧ wsck ∉ prof.conferenceKeysToAttend ∧
      0 < conf.seatsAvailable ∧
      p' = { prof with conferenceKeysToAttend := prof.conferenceKeysToAttend ++ [wsck] } ∧
      c' = { conf with seatsAvailable := conf.seatsAvailable - 1 } := by
  cases hc : confs wsck with
  | none => simp [conferenceRegistration, hc] at h
  | some conf =>
    by_cases hmem : wsck ∈ prof.conferenceKeysToAttend
    · simp [conferenceRegistration, hc, hmem] at h
    · by_cases hseats : conf.seatsAvailable ≤ 0
      · simp [conferenceRegistration, hc, hmem, hseats] at h
      · simp [conferenceRegistration, hc, hmem, hseats] at h
        exact ⟨conf, rfl, hmem, by omega, h.1.symm, h.2.1.symm⟩

theorem conferenceRegistration_ok_false {wsck : String} {prof : Profile}
    {confs : String → Option Conference} {p' : Profile} {c' : Conference} {b : Bool}
    (h : conferenceRegistration false wsck prof confs = .ok (p', c', b)) :
    ∃ conf, confs wsck = some conf ∧
      ((wsck ∈ prof.conferenceKeysToAttend ∧
        p' = { prof with conferenceKeysToAttend := prof.conferenceKeysToAttend.erase wsck } ∧
        c' = { conf with seatsAvailable := conf.seatsAvailable + 1 }) ∨
       (wsck ∉ prof.conferenceKeysToAttend ∧ p' = prof ∧ c' = conf)) := by
  cases hc : confs wsck with
  | none => simp [conferenceRegistration, hc] at h
  | some conf =>
    by_cases hmem : wsck ∈ prof.conferenceKeysToAttend
    · simp [conferenceRegistration, hc, hmem] at h
      exact ⟨conf, rfl, Or.inl ⟨hmem, h.1.symm, h.2.1.symm⟩⟩
    · simp [conferenceRegistration, hc, hmem] at h
      exact ⟨conf, rfl, Or.inr ⟨hmem, h.1.symm, h.2.1.symm⟩⟩


theorem regApply_preserves (wsck : String) (m : Int) (s : SysState)
    (reg : Bool) (pid : Nat) (hInv : RegInv wsck m s) :
    RegInv wsck m (regApply wsck s reg pid) := by
  obtain ⟨hpos, hmax, hsum⟩ := hInv
  cases hp : s.profs[pid]? with
  | none => simpa only [regApply, hp] using ⟨hpos, hmax, hsum⟩
  | some prof =>
    cases hcall : conferenceRegistration reg wsck prof
        (fun k => if k = wsck then some s.conf else none) with
    | error e => simpa only [regApply, hp, hcall] using ⟨hpos, hmax, hsum⟩
    | ok t =>
      obtain ⟨p', c', b⟩ := t
      simp only [regApply, hp, hcall]
      cases reg with
      | true =>
        obtain ⟨conf, hc, hmem, hseats, hp', hc'⟩ := conferenceRegistration_ok_true hcall
        simp at hc
        subst hc
        subst hp'
        subst hc'
        refine ⟨?_, ?_, ?_⟩
        · show 0 ≤ s.conf.seatsAvailable - 1
          omega
        · show s.conf.maxAttendees = m
          exact hmax
        · show s.conf.seatsAvailable - 1 + regCount wsck (s.profs.set pid _) = m
          have hset := map_sum_set
            (fun p => (p.conferenceKeysToAttend.count wsck : Int)) s.profs pid prof
            { prof with conferenceKeysToAttend := prof.conferenceKeysToAttend ++ [wsck] } hp
          simp only [regCount] at hsum ⊢
          rw [hset]
          simp only [List.count_append]
          have hone : [wsck].count wsck = 1 := by simp
          rw [hone]
          push_cast
          omega
      | false =>
        obtain ⟨conf, hc, hcases⟩ := conferenceRegistration_ok_false hcall
        simp at hc
        subst hc
        rcases hcases with ⟨hmem, hp', hc'⟩ | ⟨hmem, hp', hc'⟩
        · subst hp'
          subst hc'
          refine ⟨?_, ?_, ?_⟩
          · show 0 ≤ s.conf.seatsAvailable + 1
            omega
          · show s.conf.maxAttendees = m
            exact hmax
          · show s.conf.seatsAvailable + 1 + regCount wsck (s.profs.set pid _) = m
            have hset := map_sum_set
              (fun p => (p.conferenceKeysToAttend.count wsck : Int)) s.profs pid prof
              { prof with conferenceKeysToAttend := prof.conferenceKeysToAttend.erase wsck } hp
            simp only [regCount] at hsum ⊢
            rw [hset]
            simp only [List.count_erase_self]
            have hcnt : 1 ≤ prof.conferenceKeysToAttend.count wsck :=
              List.count_pos_iff.mpr hmem
            push_cast [Nat.cast_sub hcnt]
            omega
        · refine ⟨?_, ?_, ?_⟩
          · show 0 ≤ c'.seatsAvailable
            rw [hc']
            exact hpos
          · show c'.maxAttendees = m
            rw [hc']
            exact hmax
          · show c'.seatsAvailable + regCount wsck (s.profs.set pid p') = m
            rw [hc', hp']
            have hset := map_sum_set
              (fun p => (p.conferenceKeysToAttend.count wsck : Int)) s.profs pid prof prof hp
            simp only [regCount] at hsum ⊢
            rw [hset]
            omega

theorem regStep_preserves (wsck : String) (m : Int) (s : SysState)
    (op : RegOp) (hInv : RegInv wsck m s) : RegInv wsck m (regStep wsck s op) :=
  regApply_preserves wsck m s op.isReg op.pid hInv

theorem runRegOps_preserves (wsck : String) (m : Int) (s : SysState)
    (ops : List RegOp) (hInv : RegInv wsck m s) :
    RegInv wsck m (runRegOps wsck s ops) := by
  induction ops generalizing s with
  | nil => exact hInv
  | cons op ops ih => exact ih _ (regStep_preserves wsck m s op hInv)

/-- Claim C1: a conference created with `maxAttendees > 0` (so
`seatsAvailable` starts at `maxAttendees`, per `_createConferenceObject`)
satisfies `0 ≤ seatsAvailable ≤ maxAttendees` after any sequence of
register/unregister calls by profiles none of which initially holds the
(freshly allocated) conference key.  Failed calls roll back, so the
statement over all sequences covers the state after each successful
operation. -/
theorem seatsAvailable_invariant (wsck : String) (c0 : Conference)
    (profs0 : List Profile) (ops : List RegOp) (requested : Int)
    (hmax : 0 < c0.maxAttendees)
    (hinit : c0.seatsAvailable = initialSeats c0.maxAttendees requested)
    (hfresh : ∀ p ∈ profs0, wsck ∉ p.conferenceKeysToAttend) :
    0 ≤ (runRegOps wsck ⟨c0, profs0⟩ ops).conf.seatsAvailable ∧
      (runRegOps wsck ⟨c0, profs0⟩ ops).conf.seatsAvailable ≤
        (runRegOps wsck ⟨c0, profs0⟩ ops).conf.maxAttendees := by
  have hseats : c0.seatsAvailable = c0.maxAttendees := by
    rw [hinit, initialSeats, if_pos hmax]
  have hcount : regCount wsck profs0 = 0 := by
    unfold regCount
    apply List.sum_eq_zero
    intro x hx
    simp only [List.mem_map] at hx
    obtain ⟨p, hp, rfl⟩ := hx
    simp [List.count_eq_zero_of_not_mem (hfresh p hp)]
  have hInv0 : RegInv wsck c0.maxAttendees ⟨c0, profs0⟩ := by
    refine ⟨?_, rfl, ?_⟩
    · show 0 ≤ c0.seatsAvailable
      omega
    · show c0.seatsAvailable + regCount wsck profs0 = c0.maxAttendees
      rw [hcount]
      omega
  have hInv := runRegOps_preserves wsck c0.maxAttendees ⟨c0, profs0⟩ ops hInv0
  obtain ⟨h1, h2, h3⟩ := hInv
  have := regCount_nonneg wsck (runRegOps wsck ⟨c0, profs0⟩ ops).profs
  constructor
  · exact h1
  · omega

/-- Closed instantiation of `seatsAvailable_invariant`: the spec §8
scenario (capacity 2; P1 registers, P1 again, P2, P3, P1 unregisters). -/
theorem seatsAvailable_invariant_witness :
    0 ≤ (runRegOps "ck1"
          ⟨⟨"Conf", "London", ["Default"], 2, 2, 6, "org"⟩,
           [⟨"P1", "e1", "M", [], []⟩, ⟨"P2", "e2", "M", [], []⟩,
            ⟨"P3", "e3", "M", [], []⟩]⟩
          [.register 0, .register 0, .register 1, .register 2, .unregister 0]).conf.seatsAvailable ∧
      (runRegOps "ck1"
          ⟨⟨"Conf", "London", ["Default"], 2, 2, 6, "org"⟩,
           [⟨"P1", "e1", "M", [], []⟩, ⟨"P2", "e2", "M", [], []⟩,
            ⟨"P3", "e3", "M", [], []⟩]⟩
          [.register 0, .register 0, .register 1, .register 2, .unregister 0]).conf.seatsAvailable ≤
        (runRegOps "ck1"
          ⟨⟨"Conf", "London", ["Default"], 2, 2, 6, "org"⟩,
           [⟨"P1", "e1", "M", [], []⟩, ⟨"P2", "e2", "M", [], []⟩,
            ⟨"P3", "e3", "M", [], []⟩]⟩
          [.register 0, .register 0, .register 1, .register 2, .unregister 0]).conf.maxAttendees :=
  seatsAvailable_invariant "ck1" ⟨"Conf", "London", ["Default"], 2, 2, 6, "org"⟩
    [⟨"P1", "e1", "M", [], []⟩, ⟨"P2", "e2", "M", [], []⟩, ⟨"P3", "e3", "M", [], []⟩]
    [.register 0, .register 0, .register 1, .register 2, .unregister 0] 99
    (by decide) (by decide) (by decide)

/-- Claim C2: Register fails with NotFound when the key does not resolve;
with Conflict when the key is already in `conferenceKeysToAttend` (and a
second registration by the same profile indeed hits this case, leaving the
state unchanged — an `Except.error` persists nothing under the
transaction); with Conflict when `seatsAvailable ≤ 0`; and on success
appends the key and decrements `seatsAvailable` by exactly 1. -/
theorem register_spec (wsck : String) (prof : Profile)
    (confs : String → Option Conference) :
    (confs wsck = none → conferenceRegistration true wsck prof confs = .error .notFound) ∧
    (∀ conf, confs wsck = some conf → wsck ∈ prof.conferenceKeysToAttend →
      conferenceRegistration true wsck prof confs = .error .conflict) ∧
    (∀ conf, confs wsck = some conf → wsck ∉ prof.conferenceKeysToAttend →
      conf.seatsAvailable ≤ 0 →
      conferenceRegistration true wsck prof confs = .error .conflict) ∧
    (∀ conf, confs wsck = some conf → wsck ∉ prof.conferenceKeysToAttend →
      0 < conf.seatsAvailable →
      conferenceRegistration true wsck prof confs =
        .ok ({ prof with conferenceKeysToAttend := prof.conferenceKeysToAttend ++ [wsck] },
             { conf with seatsAvailable := conf.seatsAvailable - 1 }, true) ∧
      ∀ p' c' b, conferenceRegistration true wsck prof confs = .ok (p', c', b) →
        conferenceRegistration true wsck p' (fun k => if k = wsck then some c' else confs k) =
          .error .conflict) := by
  refine ⟨?_, ?_, ?_, ?_⟩
  · intro h
    simp [conferenceRegistration, h]
  · intro conf h hmem
    simp [conferenceRegistration, h, hmem]
  · intro conf h hmem hseats
    simp [conferenceRegistration, h, hmem, hseats]
  · intro conf h hmem hseats
    have hs : ¬ conf.seatsAvailable ≤ 0 := by omega
    refine ⟨by simp [conferenceRegistration, h, hmem, hs], ?_⟩
    intro p' c' b hok
    simp [conferenceRegistration, h, hmem, hs] at hok
    have hp' : p' = { prof with conferenceKeysToAttend := prof.conferenceKeysToAttend ++ [wsck] } := by
      simp [hok.1.symm]
    have hmem' : wsck ∈ p'.conferenceKeysToAttend := by
      simp [hp']
    simp [conferenceRegistration, hmem']

/-- Closed instantiation of `register_spec` at concrete inputs (the spec §8
scenario: fresh conference with 2 seats, a profile registering). -/
theorem register_spec_witness :
    conferenceRegistration true "ck1"
        ⟨"P1", "p1@x.com", "M", [], []⟩
        (fun k => if k = "ck1" then some ⟨"Conf", "London", ["Default"], 2, 2, 6, "org"⟩ else none) =
      .ok (⟨"P1", "p1@x.com", "M", ["ck1"], []⟩,
           ⟨"Conf", "London", ["Default"], 2, 1, 6, "org"⟩, true) ∧
    conferenceRegistration true "missing"
        ⟨"P1", "p1@x.com", "M", [], []⟩ (fun _ => none) = .error .notFound := by
  constructor
  · have h := (register_spec "ck1" ⟨"P1", "p1@x.com", "M", [], []⟩
      (fun k => if k = "ck1" then some ⟨"Conf", "London", ["Default"], 2, 2, 6, "org"⟩ else none)).2.2.2
      ⟨"Conf", "London", ["Default"], 2, 2, 6, "org"⟩ (by simp) (by simp) (by decide)
    exact h.1
  · exact (register_spec "missing" ⟨"P1", "p1@x.com", "M", [], []⟩ (fun _ => none)).1 rfl

/-- Claim C3: Unregister fails with NotFound when the key does not resolve;
when the key is absent from `conferenceKeysToAttend` it returns the
non-error result `false` with profile and conference unchanged; on success
it removes the key (first occurrence, Python `list.remove`) and increments
`seatsAvailable` by exactly 1, unconditionally — no clamp against
`maxAttendees`. -/
theorem unregister_spec (wsck : String) (prof : Profile)
    (confs : String → Option Conference) :
    (confs wsck = none → conferenceRegistration false wsck prof confs = .error .notFound) ∧
    (∀ conf, confs wsck = some conf → wsck ∉ prof.conferenceKeysToAttend →
      conferenceRegistration false wsck prof confs = .ok (prof, conf, false)) ∧
    (∀ conf, confs wsck = some conf → wsck ∈ prof.conferenceKeysToAttend →
      conferenceRegistration false wsck prof confs =
        .ok ({ prof with conferenceKeysToAttend := prof.conferenceKeysToAttend.erase wsck },
             { conf with seatsAvailable := conf.seatsAvailable + 1 }, true)) := by
  refine ⟨?_, ?_, ?_⟩
  · intro h
    simp [conferenceRegistration, h]
  · intro conf h hmem
    simp [conferenceRegistration, h, hmem]
  · intro conf h hmem
    simp [conferenceRegistration, h, hmem]

/-- Closed instantiation of `unregister_spec`: unregistering while not
registered returns `false` and leaves seats unchanged, and a successful
unregister pushes `seatsAvailable` to `maxAttendees + 1` when the
conference is already full — exhibiting the absence of an upper clamp. -/
theorem unregister_spec_witness :
    conferenceRegistration false "ck1"
        ⟨"P1", "p1@x.com", "M", [], []⟩
        (fun k => if k = "ck1" then some ⟨"Conf", "London", ["Default"], 2, 2, 6, "org"⟩ else none) =
      .ok (⟨"P1", "p1@x.com", "M", [], []⟩,
           ⟨"Conf", "London", ["Default"], 2, 2, 6, "org"⟩, false) ∧
    conferenceRegistration false "ck1"
        ⟨"P2", "p2@x.com", "M", ["ck1"], []⟩
        (fun k => if k = "ck1" then some ⟨"Conf", "London", ["Default"], 2, 2, 6, "org"⟩ else none) =
      .ok (⟨"P2", "p2@x.com", "M", [], []⟩,
           ⟨"Conf", "London", ["Default"], 2, 3, 6, "org"⟩, true) := by
  constructor
  · exact (unregister_spec "ck1" ⟨"P1", "p1@x.com", "M", [], []⟩
      (fun k => if k = "ck1" then some ⟨"Conf", "London", ["Default"], 2, 2, 6, "org"⟩ else none)).2.1
      ⟨"Conf", "London", ["Default"], 2, 2, 6, "org"⟩ (by simp) (by simp)
  · have h := (unregister_spec "ck1" ⟨"P2", "p2@x.com", "M", ["ck1"], []⟩
      (fun k => if k = "ck1" then some ⟨"Conf", "London", ["Default"], 2, 2, 6, "org"⟩ else none)).2.2
      ⟨"Conf", "London", ["Default"], 2, 2, 6, "org"⟩ (by simp) (by simp)
    simpa using h

/-- `addSessionToWishlist` (conference.py lines 536-559).  The method runs
under `@ndb.transactional`; only the Profile is read, mutated and written.
The session entity itself is only existence-checked. -/
def addSessionToWishlist (prof : Profile) (wssk : String)
    (sessions : String → Option Session) : Except PyErr (Profile × Bool) :=
  match sessions wssk with
  | none => .error .notFound
  | some _ =>
    if wssk ∈ prof.sessWishlist then
      .error .conflict
    else
      .ok ({ prof with sessWishlist := prof.sessWishlist ++ [wssk] }, true)

/-- Fetch of the wishlist keys in `getSessionsInWishlist` (conference.py
lines 561-571): `ndb.get_multi` yields `None` for a key that does not
resolve, and the subsequent `_copySessionToForm(session)` on a `None`
raises AttributeError at `sess.key.urlsafe()` in the `websafeKey` branch
(SessionForm has that field: line 445 does `del data['websafeKey']`).
The first non-resolving entry therefore aborts the whole request. -/
def fetchSessions (sessions : String → Option Session) :
    List String → Except PyErr (List Session)
  | [] => .ok []
  | k :: ks =>
    match sessions k with
    | none => .error .attributeError
    | some s =>
      match fetchSessions sessions ks with
      | .ok rest => .ok (s :: rest)
      | .error e => .error e

/-- `getSessionsInWishlist` (conference.py lines 561-571). -/
def getSessionsInWishlist (prof : Profile)
    (sessions : String → Option Session) : Except PyErr (List Session) :=
  fetchSessions sessions prof.sessWishlist

/-- `deleteSessionInWishlist` (conference.py lines 573-598).  The result of
`ndb.Key(urlsafe=...).get()` is not None-checked: when the session key does
not resolve, the next line `sess.key.parent()` raises AttributeError.  When
the session resolves but its parent conference does not, the code raises
NotFoundException; a key absent from the wishlist raises ConflictException;
otherwise the first occurrence is removed and the profile persisted. -/
def deleteSessionInWishlist (prof : Profile) (wssk : String)
    (sessions : String → Option Session)
    (confs : String → Option Conference) : Except PyErr (Profile × Bool) :=
  match sessions wssk with
  | none => .error .attributeError
  | some sess =>
    match confs sess.wsckParent with
    | none => .error .notFound
    | some _ =>
      if wssk ∈ prof.sessWishlist then
        .ok ({ prof with sessWishlist := prof.sessWishlist.erase wssk }, true)
      else
        .error .conflict

/-- Claim C9: AddToWishlist fails with NotFound when the session key does
not resolve; with Conflict when the key is already on the wishlist (the
error persists nothing, so the wishlist length is unchanged, and in
particular a second add without an intervening remove conflicts); and on
success appends the key, mutating only the Profile. -/
theorem addWishlist_spec (wssk : String) (prof : Profile)
    (sessions : String → Option Session) :
    (sessions wssk = none → addSessionToWishlist prof wssk sessions = .error .notFound) ∧
    (∀ s, sessions wssk = some s → wssk ∈ prof.sessWishlist →
      addSessionToWishlist prof wssk sessions = .error .conflict) ∧
    (∀ s, sessions wssk = some s → wssk ∉ prof.sessWishlist →
      addSessionToWishlist prof wssk sessions =
        .ok ({ prof with sessWishlist := prof.sessWishlist ++ [wssk] }, true) ∧
      ∀ p' b, addSessionToWishlist prof wssk sessions = .ok (p', b) →
        addSessionToWishlist p' wssk sessions = .error .conflict) := by
  refine ⟨?_, ?_, ?_⟩
  · intro h
    simp [addSessionToWishlist, h]
  · intro s h hmem
    simp [addSessionToWishlist, h, hmem]
  · intro s h hmem
    refine ⟨by simp [addSessionToWishlist, h, hmem], ?_⟩
    intro p' b hok
    simp [addSessionToWishlist, h, hmem] at hok
    have hmem' : wssk ∈ p'.sessWishlist := by
      rw [← hok.1]
      simp
    simp [addSessionToWishlist, h, hmem']

/-- Closed instantiation of `addWishlist_spec`: a successful add followed by
a second add of the same key, which conflicts. -/
theorem addWishlist_spec_witness :
    addSessionToWishlist ⟨"U", "e", "M", [], []⟩ "sk"
        (fun k => if k = "sk" then some ⟨"S", [], "Alice", "Lecture", "ck"⟩ else none) =
      .ok (⟨"U", "e", "M", [], ["sk"]⟩, true) ∧
    addSessionToWishlist ⟨"U", "e", "M", [], ["sk"]⟩ "sk"
        (fun k => if k = "sk" then some ⟨"S", [], "Alice", "Lecture", "ck"⟩ else none) =
      .error .conflict := by
  have h := (addWishlist_spec "sk" ⟨"U", "e", "M", [], []⟩
      (fun k => if k = "sk" then some ⟨"S", [], "Alice", "Lecture", "ck"⟩ else none)).2.2
      ⟨"S", [], "Alice", "Lecture", "ck"⟩ (by simp) (by simp)
  exact ⟨h.1, h.2 ⟨"U", "e", "M", [], ["sk"]⟩ true h.1⟩

/-- Claim C7 (code bug): evaluation of `deleteSessionInWishlist`.  At a
session key that does not resolve the code raises AttributeError — not the
NotFound the claim states — because `sess.key.parent()` is evaluated on
`None`.  The remaining branches behave as claimed: missing parent
conference gives NotFound, a key not on the wishlist gives Conflict, and a
present key is removed. -/
theorem deleteWishlist_eval :
    deleteSessionInWishlist ⟨"U", "e", "M", [], ["sk"]⟩ "sk"
        (fun _ => none) (fun _ => none) = .error .attributeError ∧
    (Except.error PyErr.attributeError : Except PyErr (Profile × Bool)) ≠
      .error .notFound ∧
    deleteSessionInWishlist ⟨"U", "e", "M", [], ["sk"]⟩ "sk"
        (fun k => if k = "sk" then some ⟨"S", [], "Alice", "Lecture", "ck"⟩ else none)
        (fun _ => none) = .error .notFound ∧
    deleteSessionInWishlist ⟨"U", "e", "M", [], ["sk"]⟩ "sk"
        (fun k => if k = "sk" then some ⟨"S", [], "Alice", "Lecture", "ck"⟩ else none)
        (fun k => if k = "ck" then some ⟨"C", "L", [], 10, 5, 1, "org"⟩ else none) =
      .ok (⟨"U", "e", "M", [], []⟩, true) ∧
    deleteSessionInWishlist ⟨"U", "e", "M", [], []⟩ "sk"
        (fun k => if k = "sk" then some ⟨"S", [], "Alice", "Lecture", "ck"⟩ else none)
        (fun k => if k = "ck" then some ⟨"C", "L", [], 10, 5, 1, "org"⟩ else none) =
      .error .conflict := by
  refine ⟨rfl, by simp, rfl, ?_, rfl⟩
  simp [deleteSessionInWishlist]

theorem fetchSessions_all_resolve (sessions : String → Option Session)
    (keys : List String) (h : ∀ k ∈ keys, (sessions k).isSome) :
    fetchSessions sessions keys = .ok (keys.filterMap sessions) := by
  induction keys with
  | nil => rfl
  | cons k ks ih =>
    have hk := h k (by simp)
    cases hs : sessions k with
    | none => rw [hs] at hk; simp at hk
    | some s =>
      have hrest := ih (fun x hx => h x (by simp [hx]))
      simp [fetchSessions, hs, hrest, List.filterMap_cons]

theorem fetchSessions_stale (sessions : String → Option Session)
    (keys : List String) (k : String) (hk : k ∈ keys) (hs : sessions k = none) :
    fetchSessions sessions keys = .error .attributeError := by
  induction keys with
  | nil => simp at hk
  | cons a ks ih =>
    rcases List.mem_cons.mp hk with rfl | hmem
    · simp [fetchSessions, hs]
    · cases ha : sessions a with
      | none => simp [fetchSessions, ha]
      | some s => simp [fetchSessions, ha, ih hmem]

/-- Claim C8 counterexample: a profile whose wishlist holds a resolving key
"a" and a stale key "b".  The claim predicts the stale entry is silently
dropped, i.e. the result is the one-element session list; the code instead
fails the whole request with AttributeError. -/
theorem wishlist_stale_entry_counterexample :
    getSessionsInWishlist ⟨"U", "e", "M", [], ["a", "b"]⟩
        (fun k => if k = "a" then some ⟨"S", [], "Alice", "Lecture", "ck"⟩ else none) =
      .error .attributeError ∧
    getSessionsInWishlist ⟨"U", "e", "M", [], ["a", "b"]⟩
        (fun k => if k = "a" then some ⟨"S", [], "Alice", "Lecture", "ck"⟩ else none) ≠
      .ok [⟨"S", [], "Alice", "Lecture", "ck"⟩] := by
  refine ⟨rfl, ?_⟩
  intro h
  rw [show getSessionsInWishlist ⟨"U", "e", "M", [], ["a", "b"]⟩
      (fun k => if k = "a" then some ⟨"S", [], "Alice", "Lecture", "ck"⟩ else none) =
      .error .attributeError from rfl] at h
  simp at h

/-- Claim C8 as amended: ListWishlist returns the sessions fetched from the
profile's wishlist keys, in wishlist order, when every key resolves; an
entry whose key does not resolve makes the whole operation fail with
AttributeError instead of being dropped from the result. -/
theorem wishlist_fetch_spec (prof : Profile)
    (sessions : String → Option Session) :
    ((∀ k ∈ prof.sessWishlist, (sessions k).isSome) →
      getSessionsInWishlist prof sessions =
        .ok (prof.sessWishlist.filterMap sessions)) ∧
    (∀ k, k ∈ prof.sessWishlist → sessions k = none →
      getSessionsInWishlist prof sessions = .error .attributeError) := by
  constructor
  · intro h
    exact fetchSessions_all_resolve sessions prof.sessWishlist h
  · intro k hk hs
    exact fetchSessions_stale sessions prof.sessWishlist k hk hs

/-- Closed instantiation of `wishlist_fetch_spec`: both the all-resolving
case and the stale-entry case at concrete stores. -/
theorem wishlist_fetch_spec_witness :
    getSessionsInWishlist ⟨"U", "e", "M", [], ["a"]⟩
        (fun k => if k = "a" then some ⟨"S", [], "Alice", "Lecture", "ck"⟩ else none) =
      .ok [⟨"S", [], "Alice", "Lecture", "ck"⟩] ∧
    getSessionsInWishlist ⟨"U", "e", "M", [], ["a", "stale"]⟩
        (fun k => if k = "a" then some ⟨"S", [], "Alice", "Lecture", "ck"⟩ else none) =
      .error .attributeError := by
  constructor
  · have h := (wishlist_fetch_spec ⟨"U", "e", "M", [], ["a"]⟩
        (fun k => if k = "a" then some ⟨"S", [], "Alice", "Lecture", "ck"⟩ else none)).1
        (by intro k hk; simp at hk; simp [hk])
    simpa using h
  · exact (wishlist_fetch_spec ⟨"U", "e", "M", [], ["a", "stale"]⟩
        (fun k => if k = "a" then some ⟨"S", [], "Alice", "Lecture", "ck"⟩ else none)).2
        "stale" (by simp) (by simp)

/-- Distinct elements of `l` in order of first occurrence: the iteration
order the embedding fixes for `Counter(speaker_list)` (CPython 2.7 dict
iteration order is implementation-defined; the code's selection depends on
it only through which equally-frequent speaker comes first). -/
def firstOccs (l : List String) : List String :=
  l.foldl (fun acc a => if a ∈ acc then acc else acc ++ [a]) []

/-- `Counter(speaker_list)` of `_cacheFeaturedSpeaker`, as (key, count)
pairs in iteration order. -/
def counterPairs (l : List String) : List (String × Nat) :=
  (firstOccs l).map (fun k => (k, l.count k))

/-- The selection loop of `_cacheFeaturedSpeaker` (conference.py lines
664-670): `speaker = None; appearances = 0; for key: if value > appearances`
— the strict comparison keeps the first key in iteration order among
equally frequent ones. -/
def selectFeatured (pairs : List (String × Nat)) : Option String × Nat :=
  pairs.foldl (fun acc kv => if kv.2 > acc.2 then (some kv.1, kv.2) else acc) (none, 0)

/-- `_cacheFeaturedSpeaker` (conference.py lines 639-679).  Result: the
raised exception or returned value, paired with the final memcache value at
`MEMCACHE_FEATURED_KEY`.  A conference key that does not resolve raises
NotFoundException before any session read or cache write.  `speaker_list`
collects the speakers of the conference's sessions whose `speaker` field is
truthy (nonempty).  When that list is empty the `speakerArray` local is
never assigned (the counting block sits inside `if spkr.speaker:` and the
variable has no method-level initialization), so `speakerArray[0]` raises
NameError.  Otherwise the speaker with the most sessions (first in
iteration order on a tie) is cached and returned when the count reaches 2,
and with a maximum count below 2 the method returns None leaving the cache
untouched. -/
def cacheFeaturedSpeaker (wsck : String) (confs : String → Option Conference)
    (sessionsOf : String → List Session) (cache : Option String) :
    Except PyErr (Option String) × Option String :=
  match confs wsck with
  | none => (.error .notFound, cache)
  | some _ =>
    let speakerList :=
      ((sessionsOf wsck).filter (fun s => s.speaker != "")).map (fun s => s.speaker)
    match counterPairs speakerList with
    | [] => (.error .nameError, cache)
    | p :: ps =>
      let sel := selectFeatured (p :: ps)
      if sel.2 ≥ 2 then
        (.ok sel.1, sel.1)
      else
        (.ok none, cache)

/-- `getFeaturedSpeaker` (conference.py lines 681-690): `memcache.get` then
`if not featured:` replaces a missing (or empty) value with the sentinel. -/
def getFeaturedSpeaker (cache : Option String) : String :=
  match cache with
  | some s => if s = "" then "There are 0 featured speakers" else s
  | none => "There are 0 featured speakers"

/-- Claim C10: when the conference key does not resolve,
`_cacheFeaturedSpeaker` raises NotFound — an outcome absent from the spec's
`speakerName | none` contract — and does so whatever the session store
holds and without touching the cache. -/
theorem featured_notFound (wsck : String) (confs : String → Option Conference)
    (sessionsOf : String → List Session) (cache : Option String)
    (h : confs wsck = none) :
    cacheFeaturedSpeaker wsck confs sessionsOf cache = (.error .notFound, cache) := by
  simp [cacheFeaturedSpeaker, h]

/-- Closed instantiation of `featured_notFound` at a concrete store with
sessions present under the key but no conference. -/
theorem featured_notFound_witness :
    cacheFeaturedSpeaker "ck" (fun _ => none)
        (fun _ => [⟨"S", [], "Alice", "Lecture", "ck"⟩]) (some "stale") =
      (.error .notFound, some "stale") :=
  featured_notFound "ck" (fun _ => none)
    (fun _ => [⟨"S", [], "Alice", "Lecture", "ck"⟩]) (some "stale") rfl

/-- Claim C4 (code bug): evaluation of `_cacheFeaturedSpeaker`.  On a
conference that exists but has no session with a nonempty speaker, the
claim says the method returns none with the cache left unset; the code
instead raises NameError (`speakerArray` is only assigned inside the
per-session `if spkr.speaker:` block).  The counting, threshold, tie-break
and cache-publication parts behave as claimed: Alice with 3 sessions out-
counts Bob with 1 and is published; a 1-1 split returns none leaving a
stale cache value in place; on a 2-2 tie the first speaker in iteration
order wins; a session with empty speaker is excluded from the count. -/
theorem featuredSpeaker_eval :
    cacheFeaturedSpeaker "ck" (fun k => if k = "ck" then some ⟨"C", "L", [], 10, 5, 1, "o"⟩ else none)
        (fun _ => []) none = (.error .nameError, none) ∧
    cacheFeaturedSpeaker "ck" (fun k => if k = "ck" then some ⟨"C", "L", [], 10, 5, 1, "o"⟩ else none)
        (fun _ => [⟨"S1", [], "", "Lecture", "ck"⟩]) (some "stale") =
      (.error .nameError, some "stale") ∧
    cacheFeaturedSpeaker "ck" (fun k => if k = "ck" then some ⟨"C", "L", [], 10, 5, 1, "o"⟩ else none)
        (fun _ => [⟨"S1", [], "Alice", "Lecture", "ck"⟩, ⟨"S2", [], "Alice", "Lecture", "ck"⟩,
                   ⟨"S3", [], "Bob", "Lecture", "ck"⟩, ⟨"S4", [], "Alice", "Lecture", "ck"⟩])
        none = (.ok (some "Alice"), some "Alice") ∧
    cacheFeaturedSpeaker "ck" (fun k => if k = "ck" then some ⟨"C", "L", [], 10, 5, 1, "o"⟩ else none)
        (fun _ => [⟨"S1", [], "Alice", "Lecture", "ck"⟩, ⟨"S2", [], "Bob", "Lecture", "ck"⟩])
        (some "stale") = (.ok none, some "stale") ∧
    cacheFeaturedSpeaker "ck" (fun k => if k = "ck" then some ⟨"C", "L", [], 10, 5, 1, "o"⟩ else none)
        (fun _ => [⟨"S1", [], "Alice", "Lecture", "ck"⟩, ⟨"S2", [], "Bob", "Lecture", "ck"⟩,
                   ⟨"S3", [], "Alice", "Lecture", "ck"⟩, ⟨"S4", [], "Bob", "Lecture", "ck"⟩])
        none = (.ok (some "Alice"), some "Alice") ∧
    cacheFeaturedSpeaker "ck" (fun k => if k = "ck" then some ⟨"C", "L", [], 10, 5, 1, "o"⟩ else none)
        (fun _ => [⟨"S1", [], "Bob", "Lecture", "ck"⟩, ⟨"S2", [], "", "Lecture", "ck"⟩,
                   ⟨"S3", [], "Bob", "Lecture", "ck"⟩])
        none = (.ok (some "Bob"), some "Bob") := by
  refine ⟨rfl, rfl, rfl, rfl, rfl, rfl⟩

/-- `MEMCACHE_ANNOUNCEMENTS_KEY` message template (conference.py lines
57-58). -/
def announcementTpl (names : String) : String :=
  "Last chance to attend! The following conferences are nearly sold out: " ++ names

/-- The announcement query filter (conference.py lines 771-774):
`seatsAvailable <= 5 AND seatsAvailable > 0` over all conferences, in store
order. -/
def selectNearlySoldOut (allConfs : List Conference) : List Conference :=
  allConfs.filter (fun c => c.seatsAvailable ≤ 5 && c.seatsAvailable > 0)

/-- `_cacheAnnouncement` (conference.py lines 766-788): returns the
announcement string and the final memcache value at
`MEMCACHE_ANNOUNCEMENTS_KEY` (deleted when no conference qualifies). -/
def cacheAnnouncement (allConfs : List Conference) (_cache : Option String) :
    String × Option String :=
  match selectNearlySoldOut allConfs with
  | [] => ("", none)
  | c :: cs =>
    let ann := announcementTpl (String.intercalate ", " ((c :: cs).map (fun x => x.name)))
    (ann, some ann)

/-- `getAnnouncement` (conference.py lines 790-795):
`memcache.get(...) or ""`. -/
def getAnnouncement (cache : Option String) : String :=
  match cache with
  | some s => if s = "" then "" else s
  | none => ""

/-- Claim C5: the announcement recompute selects exactly the conferences
with `0 < seatsAvailable ≤ 5`; on a non-empty selection it publishes one
message with the selected names comma-joined; on an empty selection it
deletes the cache entry; and `getAnnouncement` returns the cached text, or
the empty string when the entry is absent. -/
theorem announcement_spec (allConfs : List Conference) (cache : Option String) :
    (∀ c, c ∈ selectNearlySoldOut allConfs ↔
      c ∈ allConfs ∧ 0 < c.seatsAvailable ∧ c.seatsAvailable ≤ 5) ∧
    (selectNearlySoldOut allConfs ≠ [] →
      cacheAnnouncement allConfs cache =
        (announcementTpl (String.intercalate ", "
            ((selectNearlySoldOut allConfs).map (fun x => x.name))),
         some (announcementTpl (String.intercalate ", "
            ((selectNearlySoldOut allConfs).map (fun x => x.name)))))) ∧
    (selectNearlySoldOut allConfs = [] → cacheAnnouncement allConfs cache = ("", none)) ∧
    (∀ s, getAnnouncement (some s) = s) ∧ getAnnouncement none = "" := by
  refine ⟨?_, ?_, ?_, ?_, rfl⟩
  · intro c
    simp only [selectNearlySoldOut, List.mem_filter, Bool.and_eq_true,
      decide_eq_true_eq]
    constructor
    · rintro ⟨hmem, h1, h2⟩
      exact ⟨hmem, by omega, by omega⟩
    · rintro ⟨hmem, h1, h2⟩
      refine ⟨hmem, by omega, by omega⟩
  · intro hne
    unfold cacheAnnouncement
    cases hsel : selectNearlySoldOut allConfs with
    | nil => exact absurd hsel hne
    | cons c cs => simp
  · intro hsel
    unfold cacheAnnouncement
    rw [hsel]
  · intro s
    show (if s = "" then "" else s) = s
    by_cases hs : s = ""
    · rw [if_pos hs, hs]
    · rw [if_neg hs]

/-- Closed instantiation of `announcement_spec`: the spec §8 example — seats
3 of 10 is included, seats 0 and seats 6 are excluded — and the published
message for it. -/
theorem announcement_spec_witness :
    selectNearlySoldOut
        [⟨"A", "L", [], 10, 3, 1, "o"⟩, ⟨"B", "L", [], 10, 0, 1, "o"⟩,
         ⟨"C", "L", [], 10, 6, 1, "o"⟩] = [⟨"A", "L", [], 10, 3, 1, "o"⟩] ∧
    cacheAnnouncement
        [⟨"A", "L", [], 10, 3, 1, "o"⟩, ⟨"B", "L", [], 10, 0, 1, "o"⟩,
         ⟨"C", "L", [], 10, 6, 1, "o"⟩] (some "old") =
      ("Last chance to attend! The following conferences are nearly sold out: A",
       some "Last chance to attend! The following conferences are nearly sold out: A") ∧
    cacheAnnouncement [⟨"B", "L", [], 10, 0, 1, "o"⟩] (some "old") = ("", none) ∧
    getAnnouncement none = "" := by
  refine ⟨rfl, ?_, ?_, ?_⟩
  · have h := (announcement_spec
        [⟨"A", "L", [], 10, 3, 1, "o"⟩, ⟨"B", "L", [], 10, 0, 1, "o"⟩,
         ⟨"C", "L", [], 10, 6, 1, "o"⟩] (some "old")).2.1 (by decide)
    simpa using h
  · exact (announcement_spec [⟨"B", "L", [], 10, 0, 1, "o"⟩] (some "old")).2.2.1 (by decide)
  · exact (announcement_spec [] none).2.2.2.2

/-- Modelled from the spec: `ConferenceForm` (models.py, which is not under
src/).  Spec §3 lists the Conference fields; the form necessarily exposes
at least `maxAttendees` and `seatsAvailable`, because
`_createConferenceObject` (conference.py lines 187-208) reads
`data["maxAttendees"]` and `data["seatsAvailable"]` out of the dict built
from `request.all_fields()` — a KeyError otherwise.  A `none` field models
a Python `None` (value not supplied); `topics = []` likewise counts as not
supplied (`data not in (None, [])`).  Date fields omitted as elsewhere. -/
structure ConferenceForm where
  name : Option String
  city : Option String
  topics : List String
  maxAttendees : Option Int
  seatsAvailable : Option Int
  deriving DecidableEq

/-- Field-copy loop of `_updateConferenceObject` (conference.py lines
250-260): every field with a supplied value is written onto the conference
entity. -/
def applyConferenceUpdate (f : ConferenceForm) (c : Conference) : Conference :=
  let c1 := match f.name with
    | some v => { c with name := v }
    | none => c
  let c2 := match f.city with
    | some v => { c1 with city := v }
    | none => c1
  let c3 := if f.topics = [] then c2 else { c2 with topics := f.topics }
  let c4 := match f.maxAttendees with
    | some v => { c3 with maxAttendees := v }
    | none => c3
  match f.seatsAvailable with
  | some v => { c4 with seatsAvailable := v }
  | none => c4

/-- `_updateConferenceObject` (conference.py lines 226-263), run under
`@ndb.transactional()`: NotFound when the key does not resolve; Forbidden
when the caller is not the organizer; otherwise the supplied fields are
copied onto the conference and it is persisted. -/
def updateConferenceObject (userId : String) (wsck : String) (f : ConferenceForm)
    (confs : String → Option Conference) : Except PyErr Conference :=
  match confs wsck with
  | none => .error .notFound
  | some conf =>
    if userId ≠ conf.organizerUserId then
      .error .forbidden
    else
      .ok (applyConferenceUpdate f conf)

theorem applyConferenceUpdate_seats (f : ConferenceForm) (c : Conference) :
    (applyConferenceUpdate f c).seatsAvailable =
      match f.seatsAvailable with
      | some v => v
      | none => c.seatsAvailable := by
  obtain ⟨n, ci, t, ma, sa⟩ := f
  simp only [applyConferenceUpdate]
  cases n <;> cases ci <;> cases ma <;> cases sa <;> by_cases ht : t = [] <;> simp [ht]

/-- Claim C6 counterexample: the organizer's conference update, given a
form that supplies `seatsAvailable = 7`, succeeds and overwrites
`seatsAvailable` (3 before, 7 after) — refuting the claim that every
operation other than Register/Unregister leaves `seatsAvailable`
unchanged. -/
theorem update_changes_seats_counterexample :
    updateConferenceObject "org" "ck" ⟨none, none, [], none, some 7⟩
        (fun k => if k = "ck" then some ⟨"C", "L", ["T"], 10, 3, 1, "org"⟩ else none) =
      .ok ⟨"C", "L", ["T"], 10, 7, 1, "org"⟩ ∧
    (⟨"C", "L", ["T"], 10, 7, 1, "org"⟩ : Conference).seatsAvailable ≠
      (⟨"C", "L", ["T"], 10, 3, 1, "org"⟩ : Conference).seatsAvailable :=
  ⟨rfl, by decide⟩

/-- Claim C6 as amended: the organizer's conference update leaves
`seatsAvailable` unchanged whenever the update form does not supply a
value for it, but overwrites it with the supplied value otherwise (the
generic field-copy loop does not exempt `seatsAvailable`); a successful
update also requires the caller to be the organizer. -/
theorem update_seats_frame (userId wsck : String) (f : ConferenceForm)
    (confs : String → Option Conference) (conf c' : Conference)
    (hc : confs wsck = some conf)
    (hok : updateConferenceObject userId wsck f confs = .ok c') :
    userId = conf.organizerUserId ∧
    (f.seatsAvailable = none → c'.seatsAvailable = conf.seatsAvailable) ∧
    (∀ v, f.seatsAvailable = some v → c'.seatsAvailable = v) := by
  simp only [updateConferenceObject, hc] at hok
  by_cases hu : userId = conf.organizerUserId
  · rw [if_neg (by simp [hu])] at hok
    have hc' : c' = applyConferenceUpdate f conf := (Except.ok.inj hok).symm
    refine ⟨hu, ?_, ?_⟩
    · intro hnone
      rw [hc', applyConferenceUpdate_seats, hnone]
    · intro v hv
      rw [hc', applyConferenceUpdate_seats, hv]
  · rw [if_pos hu] at hok
    cases hok

/-- Closed instantiation of `update_seats_frame`: an update supplying only
a new city produces a conference whose `seatsAvailable` equals the old
one's. -/
theorem update_seats_frame_witness :
    (⟨"C", "Paris", ["T"], 10, 3, 1, "org"⟩ : Conference).seatsAvailable =
      (⟨"C", "L", ["T"], 10, 3, 1, "org"⟩ : Conference).seatsAvailable :=
  (update_seats_frame "org" "ck" ⟨none, some "Paris", [], none, none⟩
    (fun k => if k = "ck" then some ⟨"C", "L", ["T"], 10, 3, 1, "org"⟩ else none)
    ⟨"C", "L", ["T"], 10, 3, 1, "org"⟩ ⟨"C", "Paris", ["T"], 10, 3, 1, "org"⟩
    (by simp) rfl).2.1 rfl

end ConferenceApp
